import Mathlib

/-!
Verification development for the go-web-exact repository.

The HTML content extractor (pkg/extract/extractor.go) and the parallel
scraper variants (package scraper, buffered-channel semaphore with a
rate.Limiter, and the ticker-based variant) are shallowly embedded below.
goquery documents are modelled as a tree of element and text nodes;
goquery's Find over a selection returns the matching strict descendants of
the selection's nodes in depth-first pre-order (document order), each
matched node exactly once.
-/

namespace GoWebExact

/-- Model of an HTML DOM node as parsed by goquery: either a text node or an
element node with a tag name, an attribute list and a child list. -/
inductive Html where
  | text (s : String)
  | elem (tag : String) (attrs : List (String × String)) (children : List Html)

/-- Tag name of a node; text nodes have no tag. -/
def tagOf : Html → String
  | .text _ => ""
  | .elem t _ _ => t

/-- Attribute lookup on an element node. -/
def getAttr (s : Html) (name : String) : Option String :=
  match s with
  | .text _ => none
  | .elem _ attrs _ => (attrs.find? (fun a => a.1 == name)).map (fun a => a.2)

mutual

/-- All strict descendants of a node in depth-first pre-order.  This is the
order in which goquery's Find visits (and returns) matched nodes. -/
def descendants : Html → List Html
  | .text _ => []
  | .elem _ _ cs => descendantsList cs

/-- Pre-order descendant list of a forest: each root followed by its own
descendants, left to right. -/
def descendantsList : List Html → List Html
  | [] => []
  | c :: cs => c :: descendants c ++ descendantsList cs

end

mutual

/-- Concatenated text content of a subtree, in document order: goquery's
Selection.Text for a single node. -/
def textContent : Html → String
  | .text s => s
  | .elem _ _ cs => textContentList cs

/-- Concatenated text content of a forest. -/
def textContentList : List Html → String
  | [] => ""
  | c :: cs => textContent c ++ textContentList cs

end

mutual

/-- Remove every descendant subtree whose root satisfies `p`; models
Selection.Find(sel).Remove() applied below a root node (Find matches strict
descendants only, so the root itself is kept). -/
def removeDesc (p : Html → Bool) : Html → Html
  | .text s => .text s
  | .elem t a cs => .elem t a (removeDescList p cs)

/-- Remove matching subtrees from a forest. -/
def removeDescList (p : Html → Bool) : List Html → List Html
  | [] => []
  | c :: cs => if p c then removeDescList p cs else removeDesc p c :: removeDescList p cs

end

/-- Whitespace as recognized by Go's unicode.IsSpace (the set strings.Fields
and strings.TrimSpace split or trim on). -/
def goIsSpace (c : Char) : Bool :=
  c = ' ' || c = '\t' || c = '\n' || c = '\r' || c = '\x0b' || c = '\x0c' ||
  c = '\u0085' || c = '\u00A0' || c = '\u1680' ||
  ('\u2000' ≤ c && c ≤ '\u200A') || c = '\u2028' || c = '\u2029' ||
  c = '\u202F' || c = '\u205F' || c = '\u3000'

/-- Go strings.TrimSpace: drop leading and trailing whitespace. -/
def goTrim (s : String) : String :=
  String.mk (((s.data.dropWhile goIsSpace).reverse.dropWhile goIsSpace).reverse)

/-- Accumulator loop for `fields`: `cur` holds the current in-progress field
in reverse order. -/
def fieldsCore : List Char → List Char → List String
  | [], cur => if cur.isEmpty then [] else [String.mk cur.reverse]
  | c :: cs, cur =>
    if goIsSpace c then
      (if cur.isEmpty then [] else [String.mk cur.reverse]) ++ fieldsCore cs []
    else fieldsCore cs (c :: cur)

/-- Go strings.Fields: the maximal runs of non-whitespace characters. -/
def fields (s : String) : List String := fieldsCore s.data []

/-- Go strings.Join / List.intercalate on strings. -/
def joinSep (sep : String) : List String → String
  | [] => ""
  | [a] => a
  | a :: rest => a ++ sep ++ joinSep sep rest

/-- Go strings.ReplaceAll with single-character old and new strings. -/
def replaceChar (a b : Char) (s : String) : String :=
  String.mk (s.data.map (fun c => if c = a then b else c))

/-- NormalizeText (go-utils/text, identical to the in-repo normalizeText of
the web-variant extractor): replace newlines and tabs by spaces, collapse
whitespace runs via Fields/Join, and trim. -/
def normalizeText (s : String) : String :=
  goTrim (joinSep " " (fields (replaceChar '\t' ' ' (replaceChar '\n' ' ' s))))

/-- Go len() of a string: its UTF-8 byte length. -/
def goLen (s : String) : Nat := s.data.foldl (fun n c => n + c.utf8Size) 0

/-- Go strings.HasPrefix: byte-wise prefix test (char-wise on valid UTF-8). -/
def hasPrefixGo (s pre : String) : Bool := pre.data.isPrefixOf s.data


/-! Content extractor (pkg/extract/extractor.go).  Constants first, then the
selector predicates, then the per-element formatting functions, then the
document pipeline. -/

/-- MinParagraphLength constant of the extractor. -/
def MinParagraphLength : Nat := 20

/-- MinHeadingLength constant of the extractor. -/
def MinHeadingLength : Nat := 3

/-- Marker prepended to the page title part (the Japanese article-title tag
constant of the extractor, including its trailing space). -/
def titleMark : String := "【記事タイトル】 "

/-- Marker prepended to a table caption (the Japanese caption tag constant,
including its trailing space); distinct from the "## " heading marker. -/
def tableCaptionMark : String := "【表題】 "

/-- Class attribute of a node split into its CSS class names. -/
def classList (s : Html) : List String :=
  match getAttr s "class" with
  | some v => fields v
  | none => []

/-- Does the node carry the given CSS class. -/
def hasClass (s : Html) (c : String) : Bool := (classList s).contains c

/-- Group selector "article, main, div[role='main'], #main, #content,
.post-content, .article-body, .entry-content, .markdown-body, .readme"
(the mainContentSelectors constant), as a node predicate. -/
def isMainContentSel (s : Html) : Bool :=
  tagOf s = "article" || tagOf s = "main" ||
  (tagOf s = "div" && getAttr s "role" == some "main") ||
  getAttr s "id" == some "main" || getAttr s "id" == some "content" ||
  hasClass s "post-content" || hasClass s "article-body" ||
  hasClass s "entry-content" || hasClass s "markdown-body" || hasClass s "readme"

/-- Group selector ".related-posts, .social-share, .comments, .ad-banner,
.advertisement" (the noiseSelectors constant). -/
def isNoiseSel (s : Html) : Bool :=
  hasClass s "related-posts" || hasClass s "social-share" || hasClass s "comments" ||
  hasClass s "ad-banner" || hasClass s "advertisement"

/-- Selector "header, footer, nav, aside, .sidebar, script, style, form"
used by the findMainContent fallback Not(...). -/
def isChromeSel (s : Html) : Bool :=
  tagOf s = "header" || tagOf s = "footer" || tagOf s = "nav" || tagOf s = "aside" ||
  hasClass s "sidebar" || tagOf s = "script" || tagOf s = "style" || tagOf s = "form"

/-- Heading selector "h1, h2, h3, h4, h5, h6". -/
def isHeadingSel (s : Html) : Bool :=
  tagOf s = "h1" || tagOf s = "h2" || tagOf s = "h3" ||
  tagOf s = "h4" || tagOf s = "h5" || tagOf s = "h6"

/-- Selector "pre, table", removed from a cloned general element before its
own text is measured. -/
def isPreTableSel (s : Html) : Bool := tagOf s = "pre" || tagOf s = "table"

/-- The combined content selector (textExtractionTags plus ", table, pre"):
"p, h1, h2, h3, h4, h5, h6, li, blockquote, table, pre". -/
def isContentSel (s : Html) : Bool :=
  tagOf s = "p" || isHeadingSel s || tagOf s = "li" || tagOf s = "blockquote" ||
  tagOf s = "table" || tagOf s = "pre"

/-- The normalized own text of a general element: its text content with
descendant pre and table subtrees removed (the clone-and-Remove step of
processGeneralElement), whitespace-normalized. -/
def generalText (s : Html) : String :=
  normalizeText (textContent (removeDesc isPreTableSel s))

/-- processGeneralElement: keep a heading when its normalized text is longer
than MinHeadingLength (formatted with a "## " marker), a list item whenever
its normalized text is non-empty, and any other element when its normalized
text is longer than MinParagraphLength; lengths are Go len() byte counts. -/
def processGeneralElement (s : Html) : String :=
  let text := generalText s
  let isHeading := isHeadingSel s
  let isListItem := tagOf s = "li"
  if text = "" then ""
  else if isHeading then
    (if goLen text > MinHeadingLength then "## " ++ text else "")
  else if isListItem || goLen text > MinParagraphLength then text
  else ""

/-- Table caption: the text of the first descendant caption element,
trimmed. -/
def tableCaption (s : Html) : String :=
  goTrim (textContentList (((descendants s).filter (fun n => tagOf n = "caption")).take 1))

/-- One table row: the normalized texts of its th and td cells joined by
a vertical-bar separator. -/
def rowLine (row : Html) : String :=
  joinSep " | " (((descendants row).filter (fun c => tagOf c = "th" || tagOf c = "td")).map
    (fun c => normalizeText (textContent c)))

/-- All row lines of a table: its descendant tr elements in document order,
each mapped through rowLine. -/
def rowLines (s : Html) : List String :=
  ((descendants s).filter (fun n => tagOf n = "tr")).map rowLine

/-- processTable: an optional marker-tagged caption line followed by the row
lines, joined by newlines; the empty string when nothing was collected. -/
def processTable (s : Html) : String :=
  let tableContent :=
    (if tableCaption s = "" then [] else [tableCaptionMark ++ tableCaption s]) ++ rowLines s
  if tableContent.length > 0 then joinSep "\n" tableContent else ""

/-- Format one matched content element (the dispatch inside the Each loop of
extractContentText): tables via processTable, pre blocks as fenced code with
raw trimmed text, everything else via processGeneralElement. -/
def dispatchElement (s : Html) : String :=
  if tagOf s = "table" then processTable s
  else if tagOf s = "pre" then
    (let preText := goTrim (textContent s)
     if preText = "" then "" else "```\n" ++ preText ++ "\n```")
  else processGeneralElement s

/-- Selection.Find: the matching strict descendants of each selected node,
in document order. -/
def selFind (p : Html → Bool) (sel : List Html) : List Html :=
  sel.flatMap (fun n => (descendants n).filter p)

/-- Page title: the text of the document's first title element, trimmed. -/
def pageTitle (doc : Html) : String :=
  goTrim (textContentList (((descendants doc).filter (fun n => tagOf n = "title")).take 1))

/-- findMainContent: the first match of the main-content selectors in
document order; when there is none, the document selection filtered by
Not(structural chrome) — goquery's Not drops matching nodes from the
selection itself, so the whole document is kept unless it matches. -/
def findMainContent (doc : Html) : List Html :=
  match (descendants doc).filter isMainContentSel with
  | n :: _ => [n]
  | [] => if isChromeSel doc then [] else [doc]

/-- The main-content selection after removing noise nodes (step 3 of
extractContentText). -/
def cleanedMain (doc : Html) : List Html :=
  (findMainContent doc).map (removeDesc isNoiseSel)

/-- The title parts list: step 1 of extractContentText, a single
marker-tagged part when the page title is non-empty. -/
def titleParts (doc : Html) : List String :=
  if pageTitle doc = "" then [] else [titleMark ++ pageTitle doc]

/-- The content parts appended by the Each loop of extractContentText: every
matched content element of the cleaned main selection, in document order,
formatted by dispatchElement, with empty strings skipped. -/
def contentParts (doc : Html) : List String :=
  ((selFind isContentSel (cleanedMain doc)).map dispatchElement).filter (fun c => !(c == ""))

/-- All collected parts of extractContentText, title part first. -/
def extractParts (doc : Html) : List String := titleParts doc ++ contentParts doc

/-- Message of the nothing-extracted error raised by
validateAndFormatResult. -/
def nothingExtractedMsg : String := "webページから何も抽出できませんでした"

/-- validateAndFormatResult: an extraction error when no parts were
collected; a title-only result (body not found) when exactly one part was
collected and it starts with the title marker; otherwise the parts joined
with blank lines and body found. -/
def validateAndFormatResult (parts : List String) : Except String (String × Bool) :=
  if parts.length = 0 then .error nothingExtractedMsg
  else if parts.length = 1 && hasPrefixGo (parts.headD "") titleMark then
    .ok (parts.headD "", false)
  else .ok (joinSep "\n\n" parts, true)

/-- extractContentText: the full per-document extraction pipeline, returning
the formatted text and the body-found flag, or an error message. -/
def extractContentText (doc : Html) : Except String (String × Bool) :=
  validateAndFormatResult (extractParts doc)


/-! Parallel scraper (package scraper, the rate.Limiter variant).  Each task
is one goroutine; its interaction with the rate limiter and the fetcher is
captured by a per-URL environment, and the completion-order gathering of the
results channel is captured by quantifying theorems over permutations. -/

/-- Go error values produced along a scraping task, as a closed taxonomy:
context cancellation causes, fetch and parse failures, the two wrapping
fmt.Errorf calls of ScrapeInParallel, and the no-valid-body error. -/
inductive GoErr where
  | canceled
  | deadlineExceeded
  | fetchFailed (msg : String)
  | parseFailed (msg : String)
  | nothingExtracted
  | wrapRateLimitCanceled (cause : GoErr)
  | wrapExtractFailed (cause : GoErr)
  | noValidBody (url : String)
deriving DecidableEq, Repr

/-- URLResult (pkg/types): the per-URL outcome record of the scraper. -/
structure URLResult where
  url : String
  content : String
  error : Option GoErr
deriving DecidableEq, Repr

deriving instance DecidableEq for Except

/-- The environment one task observes for its URL: the outcome of
limiter.Wait(ctx) (an error exactly when the context is cancelled during or
before the wait) and the outcome of FetchAndExtractText (text and
body-found flag, or an error). -/
structure TaskEnv where
  waitErr : Option GoErr
  fetched : Except GoErr (String × Bool)
deriving DecidableEq, Repr

/-- The body of one ScrapeInParallel goroutine: on a rate-limit wait abort,
record the wrapped cancellation error without attempting extraction;
otherwise run extraction and classify — extraction errors are wrapped,
a missing body becomes the no-valid-body error, and otherwise the result
is a success carrying the extracted content. -/
def taskResult (env : String → TaskEnv) (u : String) : URLResult :=
  match (env u).waitErr with
  | some e => { url := u, content := "", error := some (GoErr.wrapRateLimitCanceled e) }
  | none =>
    match (env u).fetched with
    | .error e => { url := u, content := "", error := some (GoErr.wrapExtractFailed e) }
    | .ok (content, hasBodyFound) =>
      { url := u, content := content,
        error := if hasBodyFound then none else some (GoErr.noValidBody u) }

/-- ScrapeInParallel: one task per input URL; the results channel receives
exactly one URLResult per task.  The list below is in dispatch order; the
gathering loop reads the channel in completion order, so theorems quantify
over permutations of this list. -/
def ScrapeInParallel (env : String → TaskEnv) (urls : List String) : List URLResult :=
  urls.map (taskResult env)

/-- Did the task for this URL fail: its rate-limit wait was aborted, or its
extraction returned an error, or extraction succeeded without a body. -/
def isTaskFailure (env : String → TaskEnv) (u : String) : Bool :=
  (env u).waitErr.isSome ||
    (match (env u).fetched with
     | .error _ => true
     | .ok (_, hasBodyFound) => !hasBodyFound)

/-! Scheduler model for the semaphore bound: the dispatch loop sends into a
buffered channel of capacity k before spawning each goroutine, and each
goroutine receives from it (releases) on termination.  A state records the
URLs not yet dispatched and the number of tasks past the acquire point. -/

/-- Scheduler state: the not-yet-dispatched URLs and the count of tasks
currently holding a semaphore slot (past the acquire, before the deferred
release). -/
structure SchedState where
  pending : List String
  running : Nat
deriving DecidableEq, Repr

/-- One scheduler transition with semaphore capacity k: dispatch sends into
the semaphore channel (blocking unless fewer than k slots are taken) and
spawns the next task; finish is a task's deferred release of its slot. -/
inductive SemStep (k : Nat) : SchedState → SchedState → Prop
  | dispatch {u : String} {rest : List String} {running : Nat} :
      running < k → SemStep k ⟨u :: rest, running⟩ ⟨rest, running + 1⟩
  | finish {pending : List String} {running : Nat} :
      SemStep k ⟨pending, running + 1⟩ ⟨pending, running⟩

/-- States reachable from an initial scheduler state by SemStep moves. -/
inductive SemReachable (k : Nat) (init : SchedState) : SchedState → Prop
  | refl : SemReachable k init init
  | step {s s' : SchedState} :
      SemReachable k init s → SemStep k s s' → SemReachable k init s'

/-- ParallelScraper (rate.Limiter variant): the constructor-fixed
concurrency bound and limiter interval (a time.Duration in nanoseconds). -/
structure ParallelScraper where
  maxConcurrency : Int
  rateLimitInterval : Int
deriving DecidableEq, Repr

/-- DefaultMaxConcurrency of the rate.Limiter variant. -/
def DefaultMaxConcurrency : Int := 10

/-- DefaultScrapeRateLimit of the rate.Limiter variant: 500 milliseconds in
nanoseconds. -/
def DefaultScrapeRateLimit : Int := 500000000

/-- NewParallelScraper (rate.Limiter variant): non-positive arguments fall
back to the defaults; the limiter is built with rate.Every(rateLimit) and
burst 1. -/
def NewParallelScraper (maxConcurrency : Int) (rateLimit : Int) : ParallelScraper :=
  { maxConcurrency := if maxConcurrency ≤ 0 then DefaultMaxConcurrency else maxConcurrency,
    rateLimitInterval := if rateLimit ≤ 0 then DefaultScrapeRateLimit else rateLimit }

/-- The capacity of the buffered semaphore channel allocated by
ScrapeInParallel: the scraper's maxConcurrency field. -/
def semaphoreCapacity (s : ParallelScraper) : Nat := s.maxConcurrency.toNat

/-! Ticker-based scraper variant (the older package scraper file): the
struct keeps a rateLimit Duration field that its constructor never sets. -/

/-- ParallelScraper of the ticker variant: maxConcurrency plus the
rateLimit Duration field (nanoseconds). -/
structure TickerParallelScraper where
  maxConcurrency : Int
  rateLimit : Int
deriving DecidableEq, Repr

/-- DefaultMaxConcurrency of the ticker variant. -/
def tickerDefaultMaxConcurrency : Int := 6

/-- NewParallelScraper of the ticker variant: only maxConcurrency is
accepted and stored; the rateLimit field is absent from the returned struct
literal, so it keeps Go's zero Duration. -/
def tickerNewParallelScraper (maxConcurrency : Int) : TickerParallelScraper :=
  { maxConcurrency :=
      if maxConcurrency ≤ 0 then tickerDefaultMaxConcurrency else maxConcurrency,
    rateLimit := 0 }

/-- time.NewTicker: panics (modelled as an error) on a non-positive
duration, otherwise yields a ticker handle. -/
def newTicker (d : Int) : Except String Unit :=
  if d ≤ 0 then .error "non-positive interval for NewTicker" else .ok ()

/-- The goroutine body of the ticker variant: the select between the ticker
channel and ctx.Done records the bare context error (no wrapping) on
cancellation; the extraction branch classifies exactly as the rate.Limiter
variant does. -/
def tickerTaskResult (env : String → TaskEnv) (u : String) : URLResult :=
  match (env u).waitErr with
  | some e => { url := u, content := "", error := some e }
  | none =>
    match (env u).fetched with
    | .error e => { url := u, content := "", error := some (GoErr.wrapExtractFailed e) }
    | .ok (content, hasBodyFound) =>
      { url := u, content := content,
        error := if hasBodyFound then none else some (GoErr.noValidBody u) }

/-- ScrapeInParallel of the ticker variant: it first calls
time.NewTicker(s.rateLimit) and only then runs the dispatch loop; the
NewTicker panic is surfaced as an error value here. -/
def tickerScrapeInParallel (s : TickerParallelScraper) (env : String → TaskEnv)
    (urls : List String) : Except String (List URLResult) :=
  match newTicker s.rateLimit with
  | .error e => .error e
  | .ok _ => .ok (urls.map (tickerTaskResult env))


/-! Concrete documents, elements and task environments used by the
theorems below. -/

/-- Document with an empty page title whose body holds a single long
paragraph whose text itself begins with the title marker. -/
def titleMarkedParagraphDoc : Html :=
  .elem "html" []
    [.elem "head" [] [],
     .elem "body" []
       [.elem "article" []
         [.elem "p" [] [.text "【記事タイトル】 this paragraph is long enough"]]]]

/-- A title-only document: a non-empty title element and an empty body. -/
def titleOnlyDoc : Html :=
  .elem "html" []
    [.elem "head" [] [.elem "title" [] [.text "My Page"]], .elem "body" [] []]

/-- An h1 element whose text is two Japanese characters (six UTF-8 bytes). -/
def shortKanjiHeading : Html := .elem "h1" [] [.text "日本"]

/-- A long ASCII paragraph element. -/
def longParagraphElem : Html :=
  .elem "p" [] [.text "This paragraph is long enough to keep."]

/-- A two-character list item element. -/
def shortListItem : Html := .elem "li" [] [.text "Go"]

/-- A document with no title and no content. -/
def emptyDoc : Html := .elem "html" [] [.elem "head" [] [], .elem "body" [] []]

/-- A document whose article holds a heading, a blockquote enclosing a
table, a paragraph and a pre block, in that order. -/
def interleavedDoc : Html :=
  .elem "html" []
    [.elem "head" [] [.elem "title" [] [.text "Doc"]],
     .elem "body" []
       [.elem "article" []
         [.elem "h1" [] [.text "Heading One"],
          .elem "blockquote" []
            [.text "A quoted passage that is quite long indeed, ",
             .elem "table" [] [.elem "tr" [] [.elem "td" [] [.text "Cell content here"]]],
             .text "continuing after the table."],
          .elem "p" [] [.text "This paragraph is definitely longer than twenty characters."],
          .elem "pre" [] [.text "code()"]]]]

/-- A paragraph with an em child, unchanged by the pre-and-table removal. -/
def emParagraph : Html := .elem "p" [] [.elem "em" [] [.text "x"]]

/-- A document whose article holds only a table with one cell that encloses
a pre block. -/
def preInTableDoc : Html :=
  .elem "html" []
    [.elem "head" [] [],
     .elem "body" [] [.elem "article" []
       [.elem "table" []
         [.elem "tr" [] [.elem "td" [] [.elem "pre" [] [.text "code"]]]]]]]

/-- The claim's table: a caption and one row with a th and a td cell. -/
def dataTable : Html :=
  .elem "table" []
    [.elem "caption" [] [.text "Data Table"],
     .elem "tr" [] [.elem "th" [] [.text "Col1"], .elem "td" [] [.text "Val1"]]]

/-- A table with two rows and no cells at all. -/
def emptyRowsTable : Html := .elem "table" [] [.elem "tr" [] [], .elem "tr" [] []]

/-- A titled document whose article holds only emptyRowsTable. -/
def emptyRowsDoc : Html :=
  .elem "html" []
    [.elem "head" [] [.elem "title" [] [.text "T"]],
     .elem "body" [] [.elem "article" [] [emptyRowsTable]]]

/-- A two-URL demonstration environment: the first URL extracts a body, the
second fails its fetch. -/
def demoEnv : String → TaskEnv := fun u =>
  if u = "https://a.example" then { waitErr := none, fetched := Except.ok ("body text", true) }
  else { waitErr := none, fetched := Except.error (GoErr.fetchFailed "boom") }

/-- The demonstration URL list. -/
def demoUrls : List String := ["https://a.example", "https://b.example"]

/-- A gathering of the demonstration run in reversed completion order. -/
def demoGathered : List URLResult :=
  [taskResult demoEnv "https://b.example", taskResult demoEnv "https://a.example"]

/-- An environment whose extraction succeeds with only a title line and no
body. -/
def titleOnlyEnv : String → TaskEnv := fun _ =>
  { waitErr := none, fetched := Except.ok ("【記事タイトル】 Some Page", false) }

/-- An environment observed under an already-cancelled context: every wait
aborts with the canceled cause. -/
def cancelledEnv : String → TaskEnv := fun _ =>
  { waitErr := some GoErr.canceled, fetched := Except.error (GoErr.fetchFailed "unused") }

/-! Supporting lemmas. -/

/-- A string with an empty character list is the empty string. -/
theorem string_eq_empty_of_data (s : String) (h : s.data = []) : s = "" := by
  cases s with
  | mk data => simp_all

/-- Appending to a non-empty string on the left keeps it non-empty. -/
theorem append_ne_empty_left (a b : String) (h : a ≠ "") : a ++ b ≠ "" := by
  intro hc
  apply h
  apply string_eq_empty_of_data
  have hd : (a ++ b).data = [] := by rw [hc]
  rw [String.data_append] at hd
  exact (List.append_eq_nil.mp hd).1

/-- joinSep of a list whose head is non-empty is non-empty. -/
theorem joinSep_head_ne_empty (sep a : String) (rest : List String) (h : a ≠ "") :
    joinSep sep (a :: rest) ≠ "" := by
  cases rest with
  | nil => exact h
  | cons b t =>
    show a ++ sep ++ joinSep sep (b :: t) ≠ ""
    exact append_ne_empty_left _ _ (append_ne_empty_left _ _ h)

/-- With a non-empty separator, joinSep produces the empty string exactly on
the empty list and on the singleton empty string. -/
theorem joinSep_eq_empty_iff (sep : String) (hsep : sep ≠ "") (l : List String) :
    joinSep sep l = "" ↔ l = [] ∨ l = [""] := by
  match l with
  | [] => simp [joinSep]
  | [a] => simp [joinSep]
  | a :: b :: t =>
    have hne : joinSep sep (a :: b :: t) ≠ "" := by
      show a ++ sep ++ joinSep sep (b :: t) ≠ ""
      intro hc
      apply hsep
      apply string_eq_empty_of_data
      have hd : (a ++ sep ++ joinSep sep (b :: t)).data = [] := by rw [hc]
      rw [String.data_append, String.data_append] at hd
      have := (List.append_eq_nil.mp hd).1
      exact (List.append_eq_nil.mp this).2
    simp [hne]

/-- The title marker is a non-empty string. -/
theorem titleMark_ne_empty : titleMark ≠ "" := by decide

/-- A string carrying its own text after the appended marker starts with the
marker. -/
theorem hasPrefixGo_append (a b : String) : hasPrefixGo (a ++ b) a = true := by
  rw [hasPrefixGo, String.data_append]
  generalize a.data = l
  generalize b.data = m
  induction l with
  | nil => simp [List.isPrefixOf]
  | cons c t ih => simp [List.isPrefixOf, ih]

/-- Every collected part of a document is a non-empty string: the title part
carries the non-empty marker, and the Each loop only appends non-empty
formatted content. -/
theorem mem_extractParts_ne_empty (doc : Html) (p : String) (hp : p ∈ extractParts doc) :
    p ≠ "" := by
  rw [extractParts] at hp
  rcases List.mem_append.mp hp with h | h
  · rw [titleParts] at h
    by_cases ht : pageTitle doc = ""
    · simp [ht] at h
    · simp [ht] at h
      rw [h]
      exact append_ne_empty_left _ _ titleMark_ne_empty
  · rw [contentParts] at h
    have hf := (List.mem_filter.mp h).2
    simpa using hf

/-- Characterization of the nil-error bodyFound = false outcome of
validateAndFormatResult: exactly one collected part, and it starts with the
title marker. -/
theorem vafr_ok_false_iff (parts : List String) (t : String) :
    validateAndFormatResult parts = Except.ok (t, false) ↔
      parts = [t] ∧ hasPrefixGo t titleMark = true := by
  match parts with
  | [] => simp [validateAndFormatResult]
  | [p] =>
    by_cases hp : hasPrefixGo p titleMark = true
    · simp [validateAndFormatResult, hp]
      intro h
      rw [← h]
      exact hp
    · simp [validateAndFormatResult, hp, joinSep]
      intro h
      rw [h] at hp
      simp [hp]
  | p :: q :: r => simp [validateAndFormatResult]

/-! Claim C1. -/

/-- C1 counterexample: extracting titleMarkedParagraphDoc returns a nil
error and bodyFound = false although the single collected part is a
paragraph and not the page title — the page title is empty and no title
part was collected — so bodyFound = false does not occur only in the
title-only case. -/
theorem bodyFound_false_not_only_title :
    extractContentText titleMarkedParagraphDoc =
      Except.ok ("【記事タイトル】 this paragraph is long enough", false) ∧
    pageTitle titleMarkedParagraphDoc = "" ∧
    titleParts titleMarkedParagraphDoc = [] :=
  ⟨rfl, rfl, rfl⟩

/-- C1 (amended): a nil-error result with bodyFound = false occurs exactly
when the collected parts are one single part that starts with the title
marker (whether or not that part is the title part); in particular every
document with a non-empty title and no qualifying content part yields
bodyFound = false with text exactly the formatted title line. -/
theorem titleOnly_iff_single_marked_part (doc : Html) :
    (∀ t, extractContentText doc = Except.ok (t, false) ↔
      extractParts doc = [t] ∧ hasPrefixGo t titleMark = true) ∧
    (pageTitle doc ≠ "" → contentParts doc = [] →
      extractContentText doc = Except.ok (titleMark ++ pageTitle doc, false)) := by
  constructor
  · intro t
    exact vafr_ok_false_iff _ t
  · intro ht hc
    have hparts : extractParts doc = [titleMark ++ pageTitle doc] := by
      rw [extractParts, titleParts, hc, if_neg ht, List.append_nil]
    rw [extractContentText]
    exact (vafr_ok_false_iff _ _).mpr ⟨hparts, hasPrefixGo_append _ _⟩

/-- Witness for C1 at titleOnlyDoc. -/
theorem titleOnly_iff_single_marked_part_witness :
    extractContentText titleOnlyDoc = Except.ok (titleMark ++ pageTitle titleOnlyDoc, false) :=
  (titleOnly_iff_single_marked_part titleOnlyDoc).2 (by decide) (by decide)

/-! Claim C3. -/

/-- C3 counterexample: this heading is kept although its normalized text has
only two characters, not more than the three-character threshold — the code
compares Go len() UTF-8 byte counts (six here), not character counts. -/
theorem headings_compare_bytes_not_chars :
    processGeneralElement shortKanjiHeading = "## 日本" ∧
    (generalText shortKanjiHeading).length = 2 ∧
    ¬((generalText shortKanjiHeading).length > MinHeadingLength) :=
  ⟨rfl, rfl, by decide⟩

/-- The empty string has Go length zero, so positive Go length forces a
non-empty string. -/
theorem ne_empty_of_goLen_pos (s : String) (h : 0 < goLen s) : s ≠ "" := by
  intro hc
  rw [hc] at h
  exact Nat.lt_irrefl 0 h

/-- C3 (amended): a paragraph or blockquote part is kept iff the normalized
text's UTF-8 byte count (Go len) strictly exceeds MinParagraphLength, a
heading iff it strictly exceeds MinHeadingLength (kept headings formatted
with the "## " marker), and a non-empty list item is always kept; the
comparisons are strict and in bytes, which agrees with character counts on
ASCII text but not in general. -/
theorem keep_thresholds (s : Html) :
    ((tagOf s = "p" ∨ tagOf s = "blockquote") →
      (processGeneralElement s ≠ "" ↔ goLen (generalText s) > MinParagraphLength) ∧
      (goLen (generalText s) > MinParagraphLength →
        processGeneralElement s = generalText s)) ∧
    (isHeadingSel s = true →
      (processGeneralElement s ≠ "" ↔ goLen (generalText s) > MinHeadingLength) ∧
      (goLen (generalText s) > MinHeadingLength →
        processGeneralElement s = "## " ++ generalText s)) ∧
    (tagOf s = "li" →
      (processGeneralElement s ≠ "" ↔ generalText s ≠ "") ∧
      (generalText s ≠ "" → processGeneralElement s = generalText s)) := by
  refine ⟨?_, ?_, ?_⟩
  · intro htag
    have hhead : isHeadingSel s = false := by
      rcases htag with h | h <;> simp [isHeadingSel, h]
    have hli : ¬(tagOf s = "li") := by
      rcases htag with h | h <;> simp [h]
    by_cases hempty : generalText s = ""
    · constructor
      · rw [processGeneralElement]
        simp [hempty, goLen]
      · intro hlen
        exact absurd hempty (ne_empty_of_goLen_pos _ (Nat.lt_of_le_of_lt (Nat.zero_le _) hlen))
    · by_cases hlen : goLen (generalText s) > MinParagraphLength
      · rw [processGeneralElement]
        simp [hempty, hhead, hli, hlen]
      · rw [processGeneralElement]
        simp [hempty, hhead, hli, hlen]
  · intro hhead
    by_cases hempty : generalText s = ""
    · constructor
      · rw [processGeneralElement]
        simp [hempty, goLen]
      · intro hlen
        exact absurd hempty (ne_empty_of_goLen_pos _ (Nat.lt_of_le_of_lt (Nat.zero_le _) hlen))
    · by_cases hlen : goLen (generalText s) > MinHeadingLength
      · rw [processGeneralElement]
        simp [hempty, hhead, hlen]
        exact append_ne_empty_left "## " _ (by decide)
      · rw [processGeneralElement]
        simp [hempty, hhead, hlen]
  · intro hli
    have hhead : isHeadingSel s = false := by simp [isHeadingSel, hli]
    by_cases hempty : generalText s = ""
    · rw [processGeneralElement]
      simp [hempty]
    · rw [processGeneralElement]
      simp [hempty, hhead, hli]

/-- Witness for C3 at a paragraph, a heading and a list item. -/
theorem keep_thresholds_witness :
    (processGeneralElement longParagraphElem ≠ "" ↔
      goLen (generalText longParagraphElem) > MinParagraphLength) ∧
    processGeneralElement shortKanjiHeading = "## " ++ generalText shortKanjiHeading ∧
    processGeneralElement shortListItem = generalText shortListItem :=
  ⟨((keep_thresholds longParagraphElem).1 (Or.inl rfl)).1,
   ((keep_thresholds shortKanjiHeading).2.1 rfl).2 (by decide),
   ((keep_thresholds shortListItem).2.2 rfl).2 (by decide)⟩

/-! Claim C5. -/

/-- C5: extraction errors (with the nothing-extracted message) exactly when
zero parts were collected, and every nil-error outcome carries non-empty
text. -/
theorem error_iff_no_parts (doc : Html) :
    (extractContentText doc = Except.error nothingExtractedMsg ↔ extractParts doc = []) ∧
    (∀ t b, extractContentText doc = Except.ok (t, b) → t ≠ "") := by
  constructor
  · rw [extractContentText]
    match hp : extractParts doc with
    | [] => simp [validateAndFormatResult]
    | [p] =>
      rw [validateAndFormatResult]
      by_cases h : hasPrefixGo p titleMark = true <;> simp [h]
    | p :: q :: r => simp [validateAndFormatResult]
  · intro t b hok
    rw [extractContentText] at hok
    match hp : extractParts doc with
    | [] => rw [hp] at hok; simp [validateAndFormatResult] at hok
    | [p] =>
      have hmem : p ≠ "" := mem_extractParts_ne_empty doc p (by rw [hp]; exact List.mem_singleton_self p)
      rw [hp, validateAndFormatResult] at hok
      by_cases h : hasPrefixGo p titleMark = true <;>
        simp [h, joinSep] at hok <;> rw [← hok.1] <;> exact hmem
    | p :: q :: r =>
      have hmem : p ≠ "" := mem_extractParts_ne_empty doc p (by rw [hp]; exact List.mem_cons_self p _)
      rw [hp, validateAndFormatResult] at hok
      simp [validateAndFormatResult] at hok
      rw [← hok.1]
      exact joinSep_head_ne_empty _ _ _ hmem

/-- Witness for C5: the empty document errors, and the title-only document's
nil-error text is non-empty. -/
theorem error_iff_no_parts_witness :
    extractContentText emptyDoc = Except.error nothingExtractedMsg ∧
    (titleMark ++ "My Page" : String) ≠ "" :=
  ⟨(error_iff_no_parts emptyDoc).1.mpr (by decide),
   (error_iff_no_parts titleOnlyDoc).2 (titleMark ++ "My Page") false rfl⟩


/-! Claim C4. -/

/-- removeDesc preserves the node's tag. -/
theorem tagOf_removeDesc (p : Html → Bool) (t : Html) :
    tagOf (removeDesc p t) = tagOf t := by
  cases t <;> rfl

/-- The pre-or-table selector only inspects the tag, so it is unaffected by
removeDesc. -/
theorem isPreTableSel_removeDesc (p : Html → Bool) (t : Html) :
    isPreTableSel (removeDesc p t) = isPreTableSel t := by
  simp [isPreTableSel, tagOf_removeDesc]

/-- Membership in the pre-order descendant list of a forest. -/
theorem mem_descendantsList (d : Html) (l : List Html) :
    d ∈ descendantsList l ↔ ∃ c ∈ l, d = c ∨ d ∈ descendants c := by
  induction l with
  | nil => simp [descendantsList]
  | cons c cs ih =>
    constructor
    · intro h
      have h0 : d ∈ c :: (descendants c ++ descendantsList cs) := h
      rcases List.mem_cons.mp h0 with h1 | h2
      · exact ⟨c, List.mem_cons_self _ _, Or.inl h1⟩
      · rcases List.mem_append.mp h2 with h3 | h3
        · exact ⟨c, List.mem_cons_self _ _, Or.inr h3⟩
        · rcases ih.mp h3 with ⟨c', hc', hcase⟩
          exact ⟨c', List.mem_cons_of_mem _ hc', hcase⟩
    · rintro ⟨c', hc', hcase⟩
      show d ∈ c :: (descendants c ++ descendantsList cs)
      rcases List.mem_cons.mp hc' with h1 | hmem
      · subst h1
        rcases hcase with h2 | h2
        · rw [h2]
          exact List.mem_cons_self _ _
        · exact List.mem_cons_of_mem _ (List.mem_append_left _ h2)
      · exact List.mem_cons_of_mem _ (List.mem_append_right _ (ih.mpr ⟨c', hmem, hcase⟩))

/-- Membership in a forest after removing matching subtrees. -/
theorem mem_removeDescList (p : Html → Bool) (d : Html) (l : List Html) :
    d ∈ removeDescList p l ↔ ∃ c ∈ l, p c = false ∧ d = removeDesc p c := by
  induction l with
  | nil => simp [removeDescList]
  | cons c cs ih =>
    by_cases hc : p c
    · simp only [removeDescList, if_pos hc, ih, List.mem_cons]
      constructor
      · rintro ⟨c', hc', hpc', hd⟩
        exact ⟨c', Or.inr hc', hpc', hd⟩
      · rintro ⟨c', hc' | hc', hpc', hd⟩
        · subst hc'
          rw [hc] at hpc'
          cases hpc'
        · exact ⟨c', hc', hpc', hd⟩
    · simp only [removeDescList, if_neg hc, List.mem_cons, ih]
      constructor
      · rintro (rfl | ⟨c', hc', hpc', hd⟩)
        · exact ⟨c, Or.inl rfl, by simp [hc], rfl⟩
        · exact ⟨c', Or.inr hc', hpc', hd⟩
      · rintro ⟨c', hc' | hc', hpc', hd⟩
        · subst hc'
          exact Or.inl hd
        · exact Or.inr ⟨c', hc', hpc', hd⟩

/-- After the clone-and-Remove step of processGeneralElement, no node of the
measured subtree is a pre or table node: every nested table or code block is
excluded from the enclosing element's text. -/
theorem removeDesc_no_preTable :
    ∀ (t d : Html), d ∈ descendants (removeDesc isPreTableSel t) →
      isPreTableSel d = false := by
  have key : ∀ (n : Nat) (t : Html), sizeOf t ≤ n →
      ∀ d, d ∈ descendants (removeDesc isPreTableSel t) → isPreTableSel d = false := by
    intro n
    induction n with
    | zero =>
      intro t ht
      have hpos : 0 < sizeOf t := by cases t <;> simp
      omega
    | succ n ih =>
      intro t ht d hd
      cases t with
      | text s => simp [removeDesc, descendants] at hd
      | elem tag attrs cs =>
        simp only [removeDesc, descendants] at hd
        rcases (mem_descendantsList d _).mp hd with ⟨c', hc', hcase⟩
        rcases (mem_removeDescList _ c' cs).mp hc' with ⟨c, hc, hpc, rfl⟩
        rcases hcase with rfl | hdesc
        · rw [isPreTableSel_removeDesc]
          exact hpc
        · refine ih c ?_ d hdesc
          have h1 : sizeOf c < sizeOf cs := List.sizeOf_lt_of_mem hc
          have h2 : sizeOf cs < sizeOf (Html.elem tag attrs cs) := by simp
          omega
  intro t d hd
  exact key (sizeOf t) t (Nat.le_refl _) d hd

/-- C4 counterexample: a pre block nested inside a table cell is emitted
twice — its text stays in the enclosing table's pipe-joined row line,
because the cell-text extraction of processTable performs no removal, and
the pre is also emitted as its own fenced part — so a table or pre nested
inside a matched element of a different kind is not always excluded from
the enclosing element's part. -/
theorem nested_pre_in_table_duplicated :
    extractParts preInTableDoc = ["code", "```\ncode\n```"] ∧
    goTrim (textContent (Html.elem "pre" [] [.text "code"])) = "code" :=
  ⟨rfl, rfl⟩

/-- C4 (amended): parts keep depth-first pre-order document position in one
pass, with table and code-block parts interleaved at their document
position, not emitted in trailing passes — on interleavedDoc the table
nested in a blockquote appears exactly once, right after the enclosing
blockquote's part and before the following paragraph — and the
exactly-once-with-exclusion guarantee holds when the enclosing matched
element is a general element (paragraph, heading, list item, blockquote):
no pre or table node survives inside the cloned subtree whose text
processGeneralElement measures.  The pre branch and the table cell texts of
extractContentText perform no such removal, so a pre inside a table cell
(or a table inside a pre) is emitted twice. -/
theorem parts_preserve_document_order :
    (∀ (t d : Html), d ∈ descendants (removeDesc isPreTableSel t) →
      isPreTableSel d = false) ∧
    extractParts interleavedDoc =
      ["【記事タイトル】 Doc", "## Heading One",
       "A quoted passage that is quite long indeed, continuing after the table.",
       "Cell content here",
       "This paragraph is definitely longer than twenty characters.",
       "```\ncode()\n```"] :=
  ⟨removeDesc_no_preTable, rfl⟩

/-- Witness for C4: the em element below emParagraph survives the removal
and is not a pre or table node. -/
theorem parts_preserve_document_order_witness :
    isPreTableSel (.elem "em" [] [.text "x"]) = false :=
  parts_preserve_document_order.1 emParagraph (.elem "em" [] [.text "x"])
    (List.mem_cons_self _ _)

/-! Claim C9. -/

/-- C9 counterexample: a table whose two rows produce no cell content yields
the non-empty single-newline block, which is then emitted as a part of the
enclosing document — emission is not skipped although no row produced any
content. -/
theorem empty_rows_table_emitted :
    rowLines emptyRowsTable = ["", ""] ∧
    processTable emptyRowsTable = "\n" ∧
    extractParts emptyRowsDoc = ["【記事タイトル】 T", "\n"] :=
  ⟨rfl, rfl, rfl⟩

/-- C9 (amended): processTable on the caption-and-one-row table produces
exactly the marker-tagged caption line, a newline, and the row's cell texts
joined by the vertical-bar separator; and the produced block is empty — so
that its emission is skipped — exactly when the table has no caption and
either no rows at all or one single row with no cell content. -/
theorem processTable_roundtrip :
    processTable dataTable = "【表題】 Data Table\nCol1 | Val1" ∧
    (∀ s : Html, processTable s = "" ↔
      tableCaption s = "" ∧ (rowLines s = [] ∨ rowLines s = [""])) := by
  constructor
  · rfl
  · intro s
    rw [processTable]
    by_cases hcap : tableCaption s = ""
    · rw [if_pos hcap, List.nil_append]
      cases hr : rowLines s with
      | nil => simp [hcap, joinSep]
      | cons a rest =>
        rw [if_pos (by simp)]
        rw [joinSep_eq_empty_iff "\n" (by decide)]
        simp [hcap]
    · rw [if_neg hcap]
      have hne : joinSep "\n" ((tableCaptionMark ++ tableCaption s) :: rowLines s) ≠ "" :=
        joinSep_head_ne_empty _ _ _ (append_ne_empty_left _ _ (by decide))
      simp [hne, hcap]


/-! Claim C2. -/

/-- Every task records its own URL in its result. -/
theorem taskResult_url (env : String → TaskEnv) (u : String) :
    (taskResult env u).url = u := by
  rw [taskResult]
  cases (env u).waitErr with
  | some e => rfl
  | none =>
    cases (env u).fetched with
    | error e => rfl
    | ok p =>
      cases p with
      | mk c b => cases b <;> rfl

/-- A task's result carries a non-nil error exactly when the task failed. -/
theorem taskResult_error_isSome (env : String → TaskEnv) (u : String) :
    (taskResult env u).error.isSome = isTaskFailure env u := by
  rw [taskResult, isTaskFailure]
  cases (env u).waitErr with
  | some e => rfl
  | none =>
    cases (env u).fetched with
    | error e => rfl
    | ok p =>
      cases p with
      | mk c b => cases b <;> rfl

/-- C2: any completion-order gathering of a ScrapeInParallel run has
exactly one result per input URL — the result count equals the input count
and the result URLs are a permutation of the input URL list — and a result
carries a non-nil error exactly when its URL's task failed (rate-limit wait
aborted, extraction error, or no body found). -/
theorem scrape_results_one_per_url (env : String → TaskEnv) (urls : List String)
    (res : List URLResult) (hperm : res.Perm (ScrapeInParallel env urls)) :
    res.length = urls.length ∧
    (res.map URLResult.url).Perm urls ∧
    (∀ r ∈ res, r.error.isSome = isTaskFailure env r.url) := by
  refine ⟨?_, ?_, ?_⟩
  · rw [hperm.length_eq, ScrapeInParallel, List.length_map]
  · have h2 : (ScrapeInParallel env urls).map URLResult.url = urls := by
      rw [ScrapeInParallel, List.map_map]
      have : ∀ u ∈ urls, (URLResult.url ∘ taskResult env) u = u := by
        intro u _
        exact taskResult_url env u
      rw [List.map_congr_left this]
      simp
    have h1 := hperm.map URLResult.url
    rw [h2] at h1
    exact h1
  · intro r hr
    have hmem : r ∈ ScrapeInParallel env urls := hperm.subset hr
    rw [ScrapeInParallel] at hmem
    rcases List.mem_map.mp hmem with ⟨u, hu, heq⟩
    rw [← heq, taskResult_url]
    exact taskResult_error_isSome env u

/-- Witness for C2 on the two-URL demonstration run gathered in reversed
order. -/
theorem scrape_results_one_per_url_witness :
    demoGathered.length = demoUrls.length ∧
    (demoGathered.map URLResult.url).Perm demoUrls ∧
    (∀ r ∈ demoGathered, r.error.isSome = isTaskFailure demoEnv r.url) :=
  scrape_results_one_per_url demoEnv demoUrls demoGathered (by decide)

/-! Claim C6. -/

/-- C6 counterexample: a task whose extraction succeeds with bodyFound =
false records the no-valid-body error but keeps the extractor's returned
title-only text in the content field — the content field is not left
empty. -/
theorem titleOnly_result_content_not_empty :
    taskResult titleOnlyEnv "https://x.example" =
      { url := "https://x.example", content := "【記事タイトル】 Some Page",
        error := some (GoErr.noValidBody "https://x.example") } ∧
    (taskResult titleOnlyEnv "https://x.example").content ≠ "" :=
  ⟨rfl, by decide⟩

/-- C6 (amended): whenever a task's rate-limit wait succeeds and its
extraction returns a nil error with bodyFound = false, the recorded
URLResult carries the no-valid-body error and its content field holds the
text returned by the extractor (the title-only line); the content field is
not cleared. -/
theorem no_body_is_error_result (env : String → TaskEnv) (u c : String)
    (hw : (env u).waitErr = none) (hf : (env u).fetched = Except.ok (c, false)) :
    taskResult env u =
      { url := u, content := c, error := some (GoErr.noValidBody u) } := by
  rw [taskResult, hw, hf]
  rfl

/-- Witness for C6 at the title-only environment. -/
theorem no_body_is_error_result_witness :
    taskResult titleOnlyEnv "https://y.example" =
      { url := "https://y.example", content := "【記事タイトル】 Some Page",
        error := some (GoErr.noValidBody "https://y.example") } :=
  no_body_is_error_result titleOnlyEnv "https://y.example" "【記事タイトル】 Some Page" rfl rfl

/-! Claim C7. -/

/-- C7: with the semaphore channel capacity fixed by the scraper's
maxConcurrency, every scheduler state reachable from the start of the
dispatch loop keeps at most that many tasks past the semaphore acquire
point: dispatch only proceeds below capacity (each permit is taken before
the goroutine is spawned), and finish releases one held permit. -/
theorem semaphore_bounds_running (sc : ParallelScraper) (urls : List String)
    (s : SchedState) (h : SemReachable (semaphoreCapacity sc) ⟨urls, 0⟩ s) :
    s.running ≤ semaphoreCapacity sc := by
  induction h with
  | refl => exact Nat.zero_le _
  | step hr hs ih =>
    cases hs with
    | dispatch hlt => exact hlt
    | finish => exact Nat.le_of_succ_le ih

/-- Witness for C7: after one dispatch step with capacity two, one task is
running, within the bound. -/
theorem semaphore_bounds_running_witness :
    (SchedState.mk ["https://b.example"] 1).running ≤
      semaphoreCapacity (NewParallelScraper 2 500000000) :=
  semaphore_bounds_running (NewParallelScraper 2 500000000)
    ["https://a.example", "https://b.example"] ⟨["https://b.example"], 1⟩
    (SemReachable.step SemReachable.refl (SemStep.dispatch (by decide)))

/-! Claim C8. -/

/-- C8: when the context is already cancelled before any task starts, every
task's rate-limiter wait aborts with the same cancellation cause, so every
input URL yields a result whose error is the wrapped cancellation cause and
whose content is empty (no extraction is attempted), and the gathered
results still cover every spawned task. -/
theorem cancelled_context_all_error (env : String → TaskEnv) (e : GoErr)
    (urls : List String) (res : List URLResult)
    (hc : ∀ u, (env u).waitErr = some e)
    (hperm : res.Perm (ScrapeInParallel env urls)) :
    res.length = urls.length ∧
    ∀ r ∈ res, r.error = some (GoErr.wrapRateLimitCanceled e) ∧ r.content = "" := by
  constructor
  · rw [hperm.length_eq, ScrapeInParallel, List.length_map]
  · intro r hr
    have hmem : r ∈ ScrapeInParallel env urls := hperm.subset hr
    rw [ScrapeInParallel] at hmem
    rcases List.mem_map.mp hmem with ⟨u, hu, heq⟩
    rw [← heq, taskResult, hc u]
    exact ⟨rfl, rfl⟩

/-- Witness for C8 on a two-URL run under the cancelled context. -/
theorem cancelled_context_all_error_witness :
    (ScrapeInParallel cancelledEnv demoUrls).length = demoUrls.length ∧
    ∀ r ∈ ScrapeInParallel cancelledEnv demoUrls,
      r.error = some (GoErr.wrapRateLimitCanceled GoErr.canceled) ∧ r.content = "" :=
  cancelled_context_all_error cancelledEnv GoErr.canceled demoUrls
    (ScrapeInParallel cancelledEnv demoUrls) (fun _ => rfl) (List.Perm.refl _)

/-! Claim C10. -/

/-- C10: the ticker variant's constructor always leaves the rateLimit field
at Go's zero Duration, so every call of its ScrapeInParallel reaches
time.NewTicker with a non-positive interval and panics, for every
concurrency argument, task environment and URL list. -/
theorem ticker_scraper_always_panics (mc : Int) (env : String → TaskEnv)
    (urls : List String) :
    (tickerNewParallelScraper mc).rateLimit = 0 ∧
    tickerScrapeInParallel (tickerNewParallelScraper mc) env urls =
      Except.error "non-positive interval for NewTicker" :=
  ⟨rfl, rfl⟩

end GoWebExact
